import Mathlib

/-!
Verification development for the AOA beacon-tracking repository.

The definitions below are shallow embeddings of the Python sources:
* `AOA.*`            — src/models/aoa_data.py and src/core/aoa_protocol.py
                       (binary 0x55 protocol; bytes are `Nat` values < 256,
                       byte strings are `List Nat`)
* `Beacon.*`         — src/test_realtime_beacon.py (`BeaconDataParser`, the
                       ASCII sub-decoder; text is `List Char`, wall-clock time
                       is passed explicitly as a rational)
* `KF.*`             — src/workers/aoa_kalman_filter.py (`PolarKalmanFilter`,
                       over `ℝ`)
* `CT.*`             — src/coordinate_transform.py and
                       src/ui/main_window.py (`_transform_local_to_global`)
-/

namespace AOA

/-- The `AnchorData` of src/models/aoa_data.py (role, id, times, voltage). -/
structure AnchorData where
  role : Nat
  anchor_id : Nat
  local_time : Nat
  system_time : Nat
  voltage : Nat
deriving DecidableEq

/-- The `AnchorData.from_bytes(data, start_index)`: little-endian extraction of
the anchor block.  `data[i]` is modelled as `data.getD i 0`; every access the
source performs is in bounds for a 33-byte frame. -/
def AnchorData.from_bytes (data : List Nat) (start_index : Nat) : AnchorData :=
  { role := data.getD start_index 0
    anchor_id := data.getD (start_index + 1) 0
    local_time := data.getD (start_index + 2) 0 |||
      (data.getD (start_index + 3) 0 <<< 8) |||
      (data.getD (start_index + 4) 0 <<< 16) |||
      (data.getD (start_index + 5) 0 <<< 24)
    system_time := data.getD (start_index + 6) 0 |||
      (data.getD (start_index + 7) 0 <<< 8) |||
      (data.getD (start_index + 8) 0 <<< 16) |||
      (data.getD (start_index + 9) 0 <<< 24)
    voltage := data.getD (start_index + 14) 0 |||
      (data.getD (start_index + 15) 0 <<< 8) }

/-- The `TagData` of src/models/aoa_data.py.  `distance` is a sign-extended 24-bit
integer (mm); `angle_raw` is the sign-extended 16-bit centidegree value — the
source stores `angle_raw / 100.0`, exposed here as `TagData.angle` (the stored
numerator is kept as an integer so that frame equality is kernel-decidable). -/
structure TagData where
  tag_id : Nat
  distance : Int
  angle_raw : Int
  fp_db : Nat
  rx_db : Nat
deriving DecidableEq

/-- The `angle` value (degrees) the source stores: `angle_raw / 100.0`. -/
def TagData.angle (t : TagData) : ℚ := (t.angle_raw : ℚ) / 100

/-- The `TagData.from_bytes(data, start_index)`: follows the source's sign
extension step by step (widen to 32 bits, mask, then reinterpret as signed). -/
def TagData.from_bytes (data : List Nat) (start_index : Nat) : TagData :=
  let distance_raw0 := data.getD (start_index + 1) 0 |||
    (data.getD (start_index + 2) 0 <<< 8) |||
    (data.getD (start_index + 3) 0 <<< 16)
  let distance_raw := if distance_raw0 &&& 0x800000 ≠ 0
    then distance_raw0 ||| 0xFF000000 else distance_raw0
  let distance_masked := distance_raw &&& 0xFFFFFFFF
  let distance : Int := if distance_masked &&& 0x80000000 ≠ 0
    then (distance_masked : Int) - 0x100000000 else (distance_masked : Int)
  let angle_raw0 := data.getD (start_index + 4) 0 |||
    (data.getD (start_index + 5) 0 <<< 8)
  let angle_raw1 := if angle_raw0 &&& 0x8000 ≠ 0
    then angle_raw0 ||| 0xFFFF0000 else angle_raw0
  let angle_masked := angle_raw1 &&& 0xFFFFFFFF
  let angle_raw : Int := if angle_masked &&& 0x80000000 ≠ 0
    then (angle_masked : Int) - 0x100000000 else (angle_masked : Int)
  { tag_id := data.getD start_index 0
    distance := distance
    angle_raw := angle_raw
    fp_db := data.getD (start_index + 6) 0
    rx_db := data.getD (start_index + 7) 0 }

/-- The `AOAFrame` of src/models/aoa_data.py.  The wall-clock `timestamp` field is
omitted (no arithmetic in the repository depends on it); `anchor_data` and
`tag_data` are always populated by `from_bytes`, so they are not `Option`s
here. -/
structure AOAFrame where
  frame_id : Nat
  header : Nat
  function_code : Nat
  anchor_data : AnchorData
  tag_data : TagData
  checksum : Nat
  is_valid : Bool
deriving DecidableEq

/-- The `AOAFrame._verify_checksum`: `sum(data[:32]) & 0xFF == data[32]`. -/
def AOAFrame.verify_checksum (data : List Nat) : Bool :=
  ((data.take 32).sum &&& 0xFF) == data.getD 32 0

/-- The `AOAFrame.from_bytes(data, frame_id)`; the source raises `ValueError` on
fewer than 33 bytes, modelled by `none`. -/
def AOAFrame.from_bytes (data : List Nat) (frame_id : Nat) : Option AOAFrame :=
  if data.length < 33 then none
  else some
    { frame_id := frame_id
      header := data.getD 0 0
      function_code := data.getD 1 0
      anchor_data := AnchorData.from_bytes data 4
      tag_data := TagData.from_bytes data 22
      checksum := data.getD 32 0
      is_valid := AOAFrame.verify_checksum data }

/-- The `AOAProtocolParser.parse_frame` (src/core/aoa_protocol.py).  The parser's
`frame_count` is threaded explicitly.  A frame whose checksum fails is
*dropped* (the source logs it and returns `None`). -/
def parse_frame (frame_count : Nat) (data : List Nat) : Nat × Option AOAFrame :=
  if data.length ≠ 33 then (frame_count, none)
  else if data.getD 0 0 ≠ 0x55 then (frame_count, none)
  else
    match AOAFrame.from_bytes data (frame_count + 1) with
    | none => (frame_count + 1, none)
    | some frame =>
        if frame.is_valid then (frame_count + 1, some frame)
        else (frame_count + 1, none)

/-- Loop body of `AOAProtocolParser.parse_stream`: scan for `0x55`, emit the
frame `parse_frame` accepts, always advance 33 bytes past a header position
and 1 byte otherwise.  The loop condition `i <= len(data) - 33` is the guard
`¬ data.length < 33` on the remaining suffix.  Every iteration of the source
loop consumes at least one byte, so the loop runs at most `data.length` times;
`fuel` is that iteration bound (`parse_stream` passes `data.length`), making
the recursion structural. -/
def parseStreamAux : Nat → Nat → List Nat → List AOAFrame
  | 0, _, _ => []
  | fuel + 1, frame_count, data =>
    if data.length < 33 then []
    else if data.getD 0 0 = 0x55 then
      match parse_frame frame_count (data.take 33) with
      | (fc, some frame) => frame :: parseStreamAux fuel fc (data.drop 33)
      | (fc, none) => parseStreamAux fuel fc (data.drop 33)
    else parseStreamAux fuel frame_count data.tail

/-- The `AOAProtocolParser.parse_stream(data)` on a fresh parser: returns only the
list of accepted frames (there is no `remaining` component in the source). -/
def parse_stream (data : List Nat) : List AOAFrame :=
  parseStreamAux data.length 0 data

/-- Instrumented variant of `parseStreamAux` that also records the byte offset
at which each emitted frame starts. -/
def parseStreamPairsAux : Nat → Nat → Nat → List Nat → List (Nat × AOAFrame)
  | 0, _, _, _ => []
  | fuel + 1, frame_count, offset, data =>
    if data.length < 33 then []
    else if data.getD 0 0 = 0x55 then
      match parse_frame frame_count (data.take 33) with
      | (fc, some frame) =>
          (offset, frame) :: parseStreamPairsAux fuel fc (offset + 33) (data.drop 33)
      | (fc, none) => parseStreamPairsAux fuel fc (offset + 33) (data.drop 33)
    else parseStreamPairsAux fuel frame_count (offset + 1) data.tail

/-- The `parse_stream` with frame start offsets. -/
def parseStreamPairs (data : List Nat) : List (Nat × AOAFrame) :=
  parseStreamPairsAux data.length 0 0 data

/-- Inversion for an accepted `parse_frame` call: the counter was bumped, the
frame came from `AOAFrame.from_bytes`, and its checksum verified. -/
theorem parse_frame_some {fc fc' : Nat} {d : List Nat} {frame : AOAFrame}
    (h : parse_frame fc d = (fc', some frame)) :
    fc' = fc + 1 ∧ AOAFrame.from_bytes d (fc + 1) = some frame ∧
      frame.is_valid = true := by
  unfold parse_frame at h
  split at h
  · simp at h
  · split at h
    · simp at h
    · rcases hfb : AOAFrame.from_bytes d (fc + 1) with _ | fr
      · simp only [hfb] at h
        exact absurd h (by simp)
      · simp only [hfb] at h
        by_cases hv : fr.is_valid
        · rw [if_pos hv] at h
          simp only [Prod.mk.injEq, Option.some.injEq] at h
          obtain ⟨h1, rfl⟩ := h
          exact ⟨h1.symm, rfl, hv⟩
        · rw [if_neg hv] at h; simp at h

/-- Every frame `parseStreamAux` emits passed the checksum check. -/
theorem parseStreamAux_valid :
    ∀ (fuel fc : Nat) (d : List Nat), ∀ f ∈ parseStreamAux fuel fc d,
      f.is_valid = true := by
  intro fuel
  induction fuel with
  | zero => intro fc d f hf; simp [parseStreamAux] at hf
  | succ n ih =>
    intro fc d f hf
    rw [parseStreamAux] at hf
    by_cases h : d.length < 33
    · rw [if_pos h] at hf; simp at hf
    · rw [if_neg h] at hf
      by_cases hh : d.getD 0 0 = 0x55
      · rw [if_pos hh] at hf
        rcases hpf : parse_frame fc (d.take 33) with ⟨fc', res⟩
        rw [hpf] at hf
        cases res with
        | some frame =>
          rcases List.mem_cons.mp hf with rfl | hmem
          · exact (parse_frame_some hpf).2.2
          · exact ih fc' (d.drop 33) f hmem
        | none => exact ih fc' (d.drop 33) f hf
      · rw [if_neg hh] at hf
        exact ih fc d.tail f hf

/-- The `parseStreamAux` is the offset-erased `parseStreamPairsAux`. -/
theorem parseStreamAux_eq_pairs :
    ∀ (fuel fc i : Nat) (d : List Nat),
      parseStreamAux fuel fc d = (parseStreamPairsAux fuel fc i d).map Prod.snd := by
  intro fuel
  induction fuel with
  | zero => intro fc i d; simp [parseStreamAux, parseStreamPairsAux]
  | succ n ih =>
    intro fc i d
    rw [parseStreamAux, parseStreamPairsAux]
    by_cases h : d.length < 33
    · simp [h]
    · rw [if_neg h, if_neg h]
      by_cases hh : d.getD 0 0 = 0x55
      · rw [if_pos hh, if_pos hh]
        rcases hpf : parse_frame fc (d.take 33) with ⟨fc', res⟩
        cases res with
        | some frame =>
          show frame :: parseStreamAux n fc' (d.drop 33) =
            List.map Prod.snd ((i, frame) :: parseStreamPairsAux n fc' (i + 33) (d.drop 33))
          rw [List.map_cons, ih fc' (i + 33)]
        | none =>
          show parseStreamAux n fc' (d.drop 33) =
            List.map Prod.snd (parseStreamPairsAux n fc' (i + 33) (d.drop 33))
          exact ih fc' (i + 33) (d.drop 33)
      · rw [if_neg hh, if_neg hh]; exact ih fc (i + 1) d.tail

/-- Offsets recorded by `parseStreamPairsAux` are at least the running offset. -/
theorem parseStreamPairsAux_le :
    ∀ (fuel fc i : Nat) (d : List Nat), ∀ p ∈ parseStreamPairsAux fuel fc i d,
      i ≤ p.1 := by
  intro fuel
  induction fuel with
  | zero => intro fc i d p hp; simp [parseStreamPairsAux] at hp
  | succ n ih =>
    intro fc i d p hp
    rw [parseStreamPairsAux] at hp
    by_cases h : d.length < 33
    · rw [if_pos h] at hp; simp at hp
    · rw [if_neg h] at hp
      by_cases hh : d.getD 0 0 = 0x55
      · rw [if_pos hh] at hp
        rcases hpf : parse_frame fc (d.take 33) with ⟨fc', res⟩
        rw [hpf] at hp
        cases res with
        | some frame =>
          rcases List.mem_cons.mp hp with rfl | hmem
          · exact le_refl _
          · exact le_trans (by omega) (ih fc' (i + 33) (d.drop 33) p hmem)
        | none => exact le_trans (by omega) (ih fc' (i + 33) (d.drop 33) p hp)
      · rw [if_neg hh] at hp
        exact le_trans (by omega) (ih fc (i + 1) d.tail p hp)

/-- Consecutive emitted frames start at least 33 bytes apart. -/
theorem parseStreamPairsAux_chain :
    ∀ (fuel fc i : Nat) (d : List Nat),
      List.Chain' (fun p q => p.1 + 33 ≤ q.1) (parseStreamPairsAux fuel fc i d) := by
  intro fuel
  induction fuel with
  | zero => intro fc i d; simp [parseStreamPairsAux]
  | succ n ih =>
    intro fc i d
    rw [parseStreamPairsAux]
    by_cases h : d.length < 33
    · simp [h]
    · rw [if_neg h]
      by_cases hh : d.getD 0 0 = 0x55
      · rw [if_pos hh]
        rcases hpf : parse_frame fc (d.take 33) with ⟨fc', res⟩
        cases res with
        | some frame =>
          show List.Chain' (fun p q => p.1 + 33 ≤ q.1)
            ((i, frame) :: parseStreamPairsAux n fc' (i + 33) (d.drop 33))
          refine List.chain'_cons'.mpr ⟨fun q hq => ?_, ih fc' (i + 33) (d.drop 33)⟩
          have := parseStreamPairsAux_le n fc' (i + 33) (d.drop 33) q
            (List.mem_of_mem_head? hq)
          omega
        | none =>
          show List.Chain' (fun p q => p.1 + 33 ≤ q.1)
            (parseStreamPairsAux n fc' (i + 33) (d.drop 33))
          exact ih fc' (i + 33) (d.drop 33)
      · rw [if_neg hh]; exact ih fc (i + 1) d.tail

/-- Every emitted frame is the parse of the 33-byte slice of the input that
starts at its recorded offset (relative to the running offset `i`). -/
theorem parseStreamPairsAux_slice :
    ∀ (fuel fc i : Nat) (d : List Nat), ∀ p ∈ parseStreamPairsAux fuel fc i d,
      ∃ j, p.1 = i + j ∧ j + 33 ≤ d.length ∧
        ∃ fc0, parse_frame fc0 ((d.drop j).take 33) = (fc0 + 1, some p.2) := by
  intro fuel
  induction fuel with
  | zero => intro fc i d p hp; simp [parseStreamPairsAux] at hp
  | succ n ih =>
    intro fc i d p hp
    rw [parseStreamPairsAux] at hp
    by_cases h : d.length < 33
    · rw [if_pos h] at hp; simp at hp
    · rw [if_neg h] at hp
      by_cases hh : d.getD 0 0 = 0x55
      · rw [if_pos hh] at hp
        rcases hpf : parse_frame fc (d.take 33) with ⟨fc', res⟩
        rw [hpf] at hp
        cases res with
        | some frame =>
          rcases List.mem_cons.mp hp with rfl | hmem
          · refine ⟨0, by omega, by omega, fc, ?_⟩
            rw [List.drop_zero]
            rw [(parse_frame_some hpf).1] at hpf
            exact hpf
          · obtain ⟨j, hj, hlen, fc0, hslice⟩ := ih fc' (i + 33) (d.drop 33) p hmem
            refine ⟨33 + j, by omega, ?_, fc0, ?_⟩
            · rw [List.length_drop] at hlen; omega
            · rwa [List.drop_drop] at hslice
        | none =>
          obtain ⟨j, hj, hlen, fc0, hslice⟩ := ih fc' (i + 33) (d.drop 33) p hp
          refine ⟨33 + j, by omega, ?_, fc0, ?_⟩
          · rw [List.length_drop] at hlen; omega
          · rwa [List.drop_drop] at hslice
      · rw [if_neg hh] at hp
        obtain ⟨j, hj, hlen, fc0, hslice⟩ := ih fc (i + 1) d.tail p hp
        refine ⟨1 + j, by omega, ?_, fc0, ?_⟩
        · rw [List.length_tail] at hlen; omega
        · rwa [← List.drop_one, List.drop_drop] at hslice

/-- A 33-byte stream holding one valid frame: header `0x55`, 31 zero bytes,
checksum byte `0x55` (= the sum of the first 32 bytes). -/
def goodFrameBytes : List Nat := 0x55 :: (List.replicate 31 0 ++ [0x55])

/-- The frame `goodFrameBytes` parses to. -/
def goodFrame : AOAFrame :=
  { frame_id := 1, header := 0x55, function_code := 0,
    anchor_data := ⟨0, 0, 0, 0, 0⟩, tag_data := ⟨0, 0, 0, 0, 0⟩,
    checksum := 0x55, is_valid := true }

/-- A structurally complete candidate (33 bytes, 0x55 header) whose checksum
byte (0) does not match the sum of its first 32 bytes (0x55). -/
def invalidChecksumBytes : List Nat := 0x55 :: List.replicate 32 0

/-- Claim **C1** — the claim says a structurally complete frame is emitted by
`parse_stream` regardless of checksum validity.  The source drops it:
`parse_frame` returns `None` when `frame.is_valid` is false, so nothing is
appended.  Amended: every frame `parse_stream` emits has `is_valid = true`;
an invalid-checksum candidate is never emitted. -/
theorem c1_parse_stream_only_valid (d : List Nat) :
    ∀ f ∈ parse_stream d, f.is_valid = true :=
  parseStreamAux_valid d.length 0 d

/-- Claim **C1 (witness)**: a concrete valid frame is emitted and the theorem
applies to it. -/
theorem c1_parse_stream_only_valid_witness :
    goodFrame ∈ parse_stream goodFrameBytes ∧ goodFrame.is_valid = true :=
  ⟨by decide, c1_parse_stream_only_valid goodFrameBytes goodFrame (by decide)⟩

/-- Claim **C1 (counterexample)**: `invalidChecksumBytes` is a candidate frame
starting at a 0x55 header with 33 bytes available whose checksum fails
(`is_valid = false` after structural parsing), yet `parse_stream` returns the
empty list — the frame is *not* emitted to the caller. -/
theorem c1_counterexample :
    invalidChecksumBytes.length = 33 ∧
    invalidChecksumBytes.getD 0 0 = 0x55 ∧
    (AOAFrame.from_bytes invalidChecksumBytes 1).map AOAFrame.is_valid
      = some false ∧
    parse_stream invalidChecksumBytes = [] := by decide

/-- Claim **C2** — the claim says `parse_stream` returns `(frames, remaining)`.
The source returns only the frame list (`List[AOAFrame]`); trailing bytes are
discarded.  Amended: `parse_stream` returns exactly the frames recorded by the
offset-instrumented scan; emitted frames start at offsets at least 33 apart
(no byte belongs to two frames), and each frame is the parse of the 33-byte
slice at its offset. -/
theorem c2_parse_stream_spans (d : List Nat) :
    parse_stream d = (parseStreamPairs d).map Prod.snd ∧
    List.Chain' (fun p q => p.1 + 33 ≤ q.1) (parseStreamPairs d) ∧
    ∀ p ∈ parseStreamPairs d, p.1 + 33 ≤ d.length ∧
      ∃ fc0, parse_frame fc0 ((d.drop p.1).take 33) = (fc0 + 1, some p.2) := by
  refine ⟨parseStreamAux_eq_pairs d.length 0 0 d,
    parseStreamPairsAux_chain d.length 0 0 d, fun p hp => ?_⟩
  obtain ⟨j, hj, hlen, fc0, hpf⟩ := parseStreamPairsAux_slice d.length 0 0 d p hp
  have hj0 : j = p.1 := by omega
  rw [hj0] at hlen hpf
  exact ⟨hlen, fc0, hpf⟩

/-- Claim **C2 (witness)**: concrete instantiation on a frame followed by a stray
byte. -/
theorem c2_parse_stream_spans_witness :
    (0, goodFrame) ∈ parseStreamPairs (goodFrameBytes ++ [0x99]) ∧
    ((0 : Nat) + 33 ≤ (goodFrameBytes ++ [0x99]).length ∧
      ∃ fc0, parse_frame fc0 (((goodFrameBytes ++ [0x99]).drop 0).take 33)
        = (fc0 + 1, some goodFrame)) :=
  ⟨by decide,
    (c2_parse_stream_spans (goodFrameBytes ++ [0x99])).2.2 (0, goodFrame)
      (by decide)⟩

/-- Claim **C2 (counterexample)**: a valid frame split across two calls is lost —
both calls return `[]` and nothing is carried over (`parse_stream` has no
`remaining` return value), though the whole stream parses to one frame.  The
trailing bytes of the first call are dropped, refuting "no trailing byte is
dropped". -/
theorem c2_counterexample :
    parse_stream (goodFrameBytes.take 16) = [] ∧
    parse_stream (goodFrameBytes.drop 16) = [] ∧
    parse_stream goodFrameBytes = [goodFrame] := by decide

/-- Replacing one list entry changes the sum by the difference of the
entries. -/
theorem sum_set_getD (l : List Nat) (i b : Nat) (h : i < l.length) :
    (l.set i b).sum + l.getD i 0 = l.sum + b := by
  induction l generalizing i with
  | nil => simp at h
  | cons a t ih =>
    cases i with
    | zero => simp only [List.set_cons_zero, List.sum_cons, List.getD_cons_zero]; omega
    | succ n =>
      have hn : n < t.length := by simpa using h
      simp only [List.set_cons_succ, List.sum_cons, List.getD_cons_succ]
      have := ih n hn
      omega

set_option maxRecDepth 10000 in
/-- Flipping one bit of a byte keeps it below 256 and changes its value. -/
theorem xor_byte_bound : ∀ b < 256, ∀ k < 8, (b ^^^ 2 ^ k) < 256 ∧ (b ^^^ 2 ^ k) ≠ b := by
  decide

/-- The `n &&& 0xFF` is `n % 256`. -/
theorem and_255_eq_mod (n : Nat) : n &&& 255 = n % 256 := by
  have h := Nat.and_pow_two_sub_one_eq_mod n 8
  norm_num at h
  exact h

/-- Claim **C8**: appending `sum(p) & 0xFF` to a 32-byte prefix yields a frame that
parses with `is_valid = true`; flipping any single bit of any prefix byte
(checksum byte unchanged) makes `is_valid` false. -/
theorem c8_checksum_law (p : List Nat) (hp : p.length = 32)
    (hbytes : ∀ b ∈ p, b < 256) :
    (AOAFrame.from_bytes (p ++ [p.sum &&& 0xFF]) 1).map AOAFrame.is_valid
      = some true ∧
    ∀ i k, i < 32 → k < 8 →
      (AOAFrame.from_bytes
          ((p.set i (p.getD i 0 ^^^ 2 ^ k)) ++ [p.sum &&& 0xFF]) 1).map
        AOAFrame.is_valid = some false := by
  constructor
  · have hlen : (p ++ [p.sum &&& 0xFF]).length = 33 := by simp [hp]
    rw [AOAFrame.from_bytes, if_neg (by omega)]
    simp only [Option.map_some', Option.some.injEq]
    rw [AOAFrame.verify_checksum, List.take_left' hp,
      List.getD_append_right _ _ _ _ (by omega), hp]
    simp
  · intro i k hi hk
    have hilen : i < p.length := by omega
    have hb : p.getD i 0 < 256 := by
      rw [List.getD_eq_getElem _ _ hilen]
      exact hbytes _ (List.getElem_mem hilen)
    obtain ⟨hb'lt, hb'ne⟩ := xor_byte_bound _ hb k hk
    have hslen : (p.set i (p.getD i 0 ^^^ 2 ^ k)).length = 32 := by
      simp [hp]
    have hlen : ((p.set i (p.getD i 0 ^^^ 2 ^ k)) ++ [p.sum &&& 0xFF]).length = 33 := by
      simp [hp]
    rw [AOAFrame.from_bytes, if_neg (by omega)]
    simp only [Option.map_some', Option.some.injEq]
    rw [AOAFrame.verify_checksum, List.take_left' hslen,
      List.getD_append_right _ _ _ _ (by omega), hslen]
    simp only [Nat.sub_self, List.getD_cons_zero]
    rw [beq_eq_false_iff_ne]
    have hsum := sum_set_getD p i (p.getD i 0 ^^^ 2 ^ k) hilen
    have hble : p.getD i 0 ≤ p.sum := by
      rw [List.getD_eq_getElem _ _ hilen]
      exact List.single_le_sum (fun _ _ => Nat.zero_le _) _ (List.getElem_mem hilen)
    rw [and_255_eq_mod, and_255_eq_mod]
    omega

/-- Claim **C8 (witness)**: the all-zero prefix with bit 0 of byte 0 flipped. -/
theorem c8_checksum_law_witness :
    (List.replicate 32 0 : List Nat).length = 32 ∧
    (AOAFrame.from_bytes
        (List.replicate 32 0 ++ [(List.replicate 32 0 : List Nat).sum &&& 0xFF]) 1).map
      AOAFrame.is_valid = some true ∧
    (AOAFrame.from_bytes
        (((List.replicate 32 0 : List Nat).set 0
            ((List.replicate 32 0 : List Nat).getD 0 0 ^^^ 2 ^ 0)) ++
          [(List.replicate 32 0 : List Nat).sum &&& 0xFF]) 1).map
      AOAFrame.is_valid = some false :=
  ⟨by decide,
    (c8_checksum_law (List.replicate 32 0) (by decide) (by decide)).1,
    (c8_checksum_law (List.replicate 32 0) (by decide) (by decide)).2 0 0
      (by decide) (by decide)⟩

end AOA

namespace Beacon

/-- Python `\s` (ASCII whitespace as it occurs in the serial text). -/
def isSpace (c : Char) : Bool :=
  c == ' ' || c == '\t' || c == '\n' || c == '\r' || c == '\x0b' || c == '\x0c'

/-- Match a literal pattern prefix, returning the rest of the input. -/
def lit : List Char → List Char → Option (List Char)
  | [], s => some s
  | _ :: _, [] => none
  | p :: ps, c :: cs => if c == p then lit ps cs else none

/-- Skip any run of whitespace (`\s*`). -/
def wsMany : List Char → List Char
  | [] => []
  | c :: cs => if isSpace c then wsMany cs else c :: cs

/-- Require at least one whitespace character, then skip the run (`\s+`). -/
def ws1 : List Char → Option (List Char)
  | [] => none
  | c :: cs => if isSpace c then some (wsMany cs) else none

/-- Maximal digit run and the remaining input. -/
def takeDigits : List Char → (List Char × List Char)
  | [] => ([], [])
  | c :: cs =>
    if c.isDigit then
      let (ds, rest) := takeDigits cs
      (c :: ds, rest)
    else ([], c :: cs)

/-- Value of a digit string. -/
def digitsVal (ds : List Char) : Nat :=
  ds.foldl (fun a c => a * 10 + (c.toNat - 48)) 0

/-- The `(\d+)` with its value. -/
def digits1 (s : List Char) : Option (Nat × List Char) :=
  match takeDigits s with
  | ([], _) => none
  | (ds, rest) => some (digitsVal ds, rest)

/-- The `(-?\d+)` with its value. -/
def int1 : List Char → Option (Int × List Char)
  | '-' :: cs => (digits1 cs).map (fun p => (-(p.1 : Int), p.2))
  | s => (digits1 s).map (fun p => ((p.1 : Int), p.2))

/-- The `Custom\s+DS-TWR\s+Responder\s+SEQ\s+NUM\s+(\d+)` anchored here. -/
def seqAt (s : List Char) : Option Nat := do
  let s ← lit "Custom".data s
  let s ← ws1 s
  let s ← lit "DS-TWR".data s
  let s ← ws1 s
  let s ← lit "Responder".data s
  let s ← ws1 s
  let s ← lit "SEQ".data s
  let s ← ws1 s
  let s ← lit "NUM".data s
  let s ← ws1 s
  let (n, _) ← digits1 s
  pure n

/-- The `re.search` of the SEQ pattern: leftmost position that matches. -/
def searchSeq : List Char → Option Nat
  | [] => none
  | c :: cs =>
    match seqAt (c :: cs) with
    | some n => some n
    | none => searchSeq cs

/-- The `RSSI:\s*(-?\d+)dBm,\s*SNR:\s*(\d+)dB` anchored here. -/
def rssiAt (s : List Char) : Option (Int × Int) := do
  let s ← lit "RSSI:".data s
  let s := wsMany s
  let (rssi, s) ← int1 s
  let s ← lit "dBm,".data s
  let s := wsMany s
  let s ← lit "SNR:".data s
  let s := wsMany s
  let (snr, s) ← digits1 s
  let _ ← lit "dB".data s
  pure (rssi, (snr : Int))

/-- The `re.search` of the RSSI pattern. -/
def searchRssi : List Char → Option (Int × Int)
  | [] => none
  | c :: cs =>
    match rssiAt (c :: cs) with
    | some r => some r
    | none => searchRssi cs

/-- Continuation after the `(\S+)` capture of the Peer pattern:
`,\s*Distance\s+(\d+)cm,\s*PDoA\s+Azimuth\s+(-?\d+)`. -/
def peerCont (s : List Char) : Option (Nat × Int) := do
  let s ← lit ",".data s
  let s := wsMany s
  let s ← lit "Distance".data s
  let s ← ws1 s
  let (dist, s) ← digits1 s
  let s ← lit "cm,".data s
  let s := wsMany s
  let s ← lit "PDoA".data s
  let s ← ws1 s
  let s ← lit "Azimuth".data s
  let s ← ws1 s
  let (az, _) ← int1 s
  pure (dist, az)

/-- Greedy `(\S+)` with backtracking: prefer the longest non-space capture
whose continuation matches, exactly as the regex engine does. -/
def peerCap : List Char → Option (List Char × Nat × Int)
  | [] => none
  | c :: cs =>
    if isSpace c then none
    else
      match peerCap cs with
      | some (cap, r) => some (c :: cap, r)
      | none =>
        match peerCont cs with
        | some r => some ([c], r)
        | none => none

/-- The `Peer\s+(\S+),...` anchored here. -/
def peerAt (s : List Char) : Option (List Char × Nat × Int) := do
  let s ← lit "Peer".data s
  let s ← ws1 s
  peerCap s

/-- The `re.search` of the Peer pattern. -/
def searchPeer : List Char → Option (List Char × Nat × Int)
  | [] => none
  | c :: cs =>
    match peerAt (c :: cs) with
    | some r => some r
    | none => searchPeer cs

/-- The `re.search(r"UWB RX fail", buffer)`: substring presence. -/
def searchFail : List Char → Bool
  | [] => false
  | c :: cs =>
    match lit "UWB RX fail".data (c :: cs) with
    | some _ => true
    | none => searchFail cs

/-- Python `str.strip()` on ASCII text. -/
def stripChars (s : List Char) : List Char :=
  ((s.dropWhile (fun c => isSpace c)).reverse.dropWhile (fun c => isSpace c)).reverse

/-- The accumulator `self.current_record` of `BeaconDataParser`
(src/test_realtime_beacon.py).  `distance` is stored by the source as
`dist_cm / 100.0`; here the centimetre count is kept so that record equality
is kernel-decidable. -/
structure Record where
  seq : Option Nat
  rssi : Option Int
  snr : Option Int
  peer : Option (List Char)
  distance_cm : Option Nat
  angle : Option Int
deriving DecidableEq

/-- The fresh (cleared) record `{}`. -/
def Record.empty : Record := ⟨none, none, none, none, none, none⟩

/-- One emitted beacon measurement dict.  `distance_cm` holds the centimetre
count; the metre value the source stores is `Frame.distance = cm / 100`. -/
structure Frame where
  tag_id : Nat
  distance_cm : Nat
  angle : Int
  rssi : Option Int
  snr : Option Int
  seq : Option Nat
  peer : List Char
deriving DecidableEq

/-- The `distance` (metres) field of the emitted dict: `dist_cm / 100.0`. -/
def Frame.distance (f : Frame) : ℚ := (f.distance_cm : ℚ) / 100

/-- The `self.beacon_status`. -/
inductive BeaconStatus
  | unknown
  | connected
  | disconnected
deriving DecidableEq

/-- The synthetic disconnected measurement
`{tag_id: 1, distance: 0.0, angle: 0.0, rssi: 0, snr: 0, seq: None,
peer: 'DISCONNECTED'}`. -/
def disconnectFrame : Frame :=
  ⟨1, 0, 0, some 0, some 0, none, "DISCONNECTED".data⟩

/-- The mutable state of `BeaconDataParser`. -/
structure ParserState where
  valid_frame_count : Nat
  parsed_frame_count : Nat
  error_count : Nat
  text_buffer : List Char
  beacon_status : BeaconStatus
  last_seq : Option Nat
  last_disconnect_time : Option ℚ
  current_record : Record
deriving DecidableEq

/-- The `BeaconDataParser.__init__`. -/
def ParserState.init : ParserState :=
  ⟨0, 0, 0, [], .unknown, none, none, Record.empty⟩

/-- The `int(peer, 16) if peer.startswith('0x') else 1` (the source would raise on
non-hex digits after `0x`; that branch is never exercised here, the fold just
accumulates hex digit values). -/
def tagIdOfPeer (peer : List Char) : Nat :=
  if peer.take 2 == "0x".data then
    (peer.drop 2).foldl
      (fun a c =>
        a * 16 +
          (if c.isDigit then c.toNat - 48
           else if c ≥ 'a' then c.toNat - 87 else c.toNat - 55)) 0
  else 1

/-- Body of the per-line loop of `BeaconDataParser.feed_data`: strip, skip
empty lines, then apply the SEQ / RSSI / Peer patterns in order, emitting a
frame once all five fields are present and clearing the record. -/
def processLine (st : ParserState) (frames : List Frame) (line0 : List Char) :
    ParserState × List Frame :=
  let line := stripChars line0
  if line.isEmpty then (st, frames)
  else
    let st :=
      match searchSeq line with
      | some n =>
          { st with last_seq := some n
                    current_record := { Record.empty with seq := some n } }
      | none => st
    let st :=
      match searchRssi line with
      | some rs =>
          { st with current_record :=
              { st.current_record with rssi := some rs.1, snr := some rs.2 } }
      | none => st
    match searchPeer line with
    | some (peer, dist_cm, az) =>
      let rec0 : Record :=
        { st.current_record with
            peer := some peer, distance_cm := some dist_cm, angle := some az }
      let st := { st with current_record := rec0 }
      if rec0.seq.isSome && rec0.rssi.isSome && rec0.snr.isSome &&
          rec0.distance_cm.isSome && rec0.angle.isSome then
        let f : Frame :=
          { tag_id := tagIdOfPeer peer, distance_cm := dist_cm, angle := az
            rssi := rec0.rssi, snr := rec0.snr, seq := rec0.seq, peer := peer }
        ({ st with valid_frame_count := st.valid_frame_count + 1
                   beacon_status := .connected
                   parsed_frame_count := st.parsed_frame_count + 1
                   current_record := Record.empty },
         frames ++ [f])
      else (st, frames)
    | none => (st, frames)

/-- The `BeaconDataParser.feed_data(data)`; `now` is `time.time()` passed
explicitly.  The disconnect marker is searched in the whole accumulated
buffer (debounced to once per second while disconnected); complete lines are
then processed in order and the trailing fragment is retained. -/
def feed_data (st : ParserState) (now : ℚ) (data : List Char) :
    ParserState × List Frame :=
  let buffer := st.text_buffer ++ data
  let st := { st with text_buffer := buffer }
  let frames : List Frame := []
  let (st, frames) :=
    if searchFail buffer then
      if decide (st.beacon_status ≠ .disconnected) ||
          (match st.last_disconnect_time with
           | none => true
           | some t => decide (now - t > 1)) then
        ({ st with beacon_status := .disconnected
                   last_disconnect_time := some now },
         frames ++ [disconnectFrame])
      else (st, frames)
    else (st, frames)
  if buffer.contains '\n' then
    let lines := buffer.splitOn '\n'
    let st := { st with text_buffer := lines.getLastD [] }
    lines.dropLast.foldl (fun acc l => processLine acc.1 acc.2 l) (st, frames)
  else (st, frames)

/-- Claim **C6**: feeding `"UWB RX fail"` at t = 0 and again at t = 0.5 s emits the
synthetic disconnected measurement `{distance: 0, angle: 0}` exactly once
(the second occurrence is inside the 1 s debounce window and emits nothing),
and the link state is `DISCONNECTED` after both calls. -/
theorem c6_disconnect_debounce :
    (feed_data ParserState.init 0 "UWB RX fail\n".data).2 = [disconnectFrame] ∧
    (feed_data ParserState.init 0 "UWB RX fail\n".data).1.beacon_status
      = .disconnected ∧
    (feed_data (feed_data ParserState.init 0 "UWB RX fail\n".data).1
        (Rat.divInt 1 2) "UWB RX fail\n".data).2 = [] ∧
    (feed_data (feed_data ParserState.init 0 "UWB RX fail\n".data).1
        (Rat.divInt 1 2) "UWB RX fail\n".data).1.beacon_status = .disconnected ∧
    disconnectFrame.distance = 0 ∧ disconnectFrame.angle = 0 := by
  refine ⟨by decide, by decide, by with_unfolding_all decide,
    by with_unfolding_all decide, ?_, by decide⟩
  simp [Frame.distance, disconnectFrame]

/-- First feed chunk of the C7 scenario: two complete log lines plus the
third line broken mid-stream. -/
def c7_chunk1 : List Char :=
  ("Custom DS-TWR Responder SEQ NUM 42\nRSSI: -67dBm, SNR: 18dB\nPeer AAA1, Dist").data

/-- Second feed chunk of the C7 scenario: the rest of the third line. -/
def c7_chunk2 : List Char :=
  ("ance 320cm, PDoA Azimuth -18 Elevation 0 Azimuth FoM 96\n").data

/-- The single measurement the C7 scenario emits. -/
def c7_frame : Frame := ⟨1, 320, -18, some (-67), some 18, some 42, "AAA1".data⟩

/-- Claim **C7**: feeding the three example lines split across two `feed_data`
calls (the third line broken mid-stream) yields exactly one measurement —
none from the first call, one from the second — with
`distance = 320 cm / 100 = 3.20 m` and `angle = -18°`, and the accumulator
record is cleared afterwards. -/
theorem c7_ascii_assembly :
    (feed_data ParserState.init 0 c7_chunk1).2 = [] ∧
    (feed_data (feed_data ParserState.init 0 c7_chunk1).1 1 c7_chunk2).2
      = [c7_frame] ∧
    c7_frame.distance = 16 / 5 ∧ c7_frame.angle = -18 ∧
    (feed_data (feed_data ParserState.init 0 c7_chunk1).1 1 c7_chunk2).1.current_record
      = Record.empty := by
  refine ⟨by decide, by decide, ?_, by decide, by decide⟩
  norm_num [Frame.distance, c7_frame]

end Beacon

namespace KF

open Matrix

/-- The filter's first normalization loop, `while x > 180.0: x -= 360.0`
(src/workers/aoa_kalman_filter.py, used in `_is_angle_jump` and twice in
`update`). -/
noncomputable def wrapDown (θ : ℝ) : ℝ :=
  if h : 180 < θ then wrapDown (θ - 360) else θ
termination_by (⌈(θ - 180) / 360⌉).toNat
decreasing_by
  have h1 : (0:ℝ) < (θ - 180) / 360 := div_pos (by linarith) (by norm_num)
  have h2 : 0 < ⌈(θ - 180) / 360⌉ := Int.ceil_pos.mpr h1
  have h3 : (θ - 360 - 180) / 360 = (θ - 180) / 360 - ((1:ℤ):ℝ) := by
    push_cast; ring
  rw [h3, Int.ceil_sub_int]
  omega

/-- The second loop, `while x < -180.0: x += 360.0`. -/
noncomputable def wrapUp (θ : ℝ) : ℝ :=
  if h : θ < -180 then wrapUp (θ + 360) else θ
termination_by (⌈(-180 - θ) / 360⌉).toNat
decreasing_by
  have h1 : (0:ℝ) < (-180 - θ) / 360 := div_pos (by linarith) (by norm_num)
  have h2 : 0 < ⌈(-180 - θ) / 360⌉ := Int.ceil_pos.mpr h1
  have h3 : (-180 - (θ + 360)) / 360 = (-180 - θ) / 360 - ((1:ℤ):ℝ) := by
    push_cast; ring
  rw [h3, Int.ceil_sub_int]
  omega

/-- Both loops in sequence — the filter's angle normalization. -/
noncomputable def wrapAngle (θ : ℝ) : ℝ := wrapUp (wrapDown θ)

theorem wrapDown_le (θ : ℝ) : wrapDown θ ≤ 180 := by
  induction θ using wrapDown.induct with
  | case1 θ h ih => rwa [wrapDown, dif_pos h]
  | case2 θ h => rw [wrapDown, dif_neg h]; linarith

theorem wrapDown_eq_of_le {θ : ℝ} (h : θ ≤ 180) : wrapDown θ = θ := by
  rw [wrapDown, dif_neg (by linarith)]

theorem wrapUp_ge (θ : ℝ) : -180 ≤ wrapUp θ := by
  induction θ using wrapUp.induct with
  | case1 θ h ih => rwa [wrapUp, dif_pos h]
  | case2 θ h => rw [wrapUp, dif_neg h]; linarith

theorem wrapUp_le {θ : ℝ} (h : θ ≤ 180) : wrapUp θ ≤ 180 := by
  induction θ using wrapUp.induct with
  | case1 θ h' ih => rw [wrapUp, dif_pos h']; exact ih (by linarith)
  | case2 θ h' => rwa [wrapUp, dif_neg h']

theorem wrapUp_eq_of_ge {θ : ℝ} (h : -180 ≤ θ) : wrapUp θ = θ := by
  rw [wrapUp, dif_neg (by linarith)]

theorem wrapAngle_mem (θ : ℝ) : wrapAngle θ ∈ Set.Icc (-180 : ℝ) 180 :=
  ⟨wrapUp_ge _, wrapUp_le (wrapDown_le θ)⟩

theorem wrapAngle_eq_of_mem {θ : ℝ} (h1 : -180 ≤ θ) (h2 : θ ≤ 180) :
    wrapAngle θ = θ := by
  rw [wrapAngle, wrapDown_eq_of_le h2, wrapUp_eq_of_ge h1]

/-- Claim **C5** — the claim says `wrap` is idempotent (true) and that its result
lies in the half-open interval `(-180, 180]` (false: `-180` is a fixed point).
Amended: `wrap (wrap θ) = wrap θ` for every real `θ`, and `wrap θ` lies in the
*closed* interval `[-180, 180]`. -/
theorem c5_wrap_idempotent_and_range (θ : ℝ) :
    wrapAngle (wrapAngle θ) = wrapAngle θ ∧
    wrapAngle θ ∈ Set.Icc (-180 : ℝ) 180 :=
  ⟨wrapAngle_eq_of_mem (wrapAngle_mem θ).1 (wrapAngle_mem θ).2, wrapAngle_mem θ⟩

/-- Claim **C5 (counterexample)**: the loop-based normalization leaves `-180`
unchanged, and `-180` is not in the claimed half-open range `(-180, 180]`. -/
theorem c5_counterexample :
    wrapAngle (-180 : ℝ) = -180 ∧ (-180 : ℝ) ∉ Set.Ioc (-180 : ℝ) 180 := by
  constructor
  · rw [wrapAngle, wrapDown_eq_of_le (by norm_num), wrapUp_eq_of_ge (by norm_num)]
  · simp

/-- Constructor parameters of `PolarKalmanFilter`
(src/workers/aoa_kalman_filter.py). -/
structure Config where
  process_noise : ℝ
  measurement_noise : ℝ
  min_confidence : ℝ
  max_human_speed : ℝ
  angle_jump_threshold_deg : ℝ
  stale_reset_sec : ℝ

/-- The constructor defaults: `(0.1, 0.5, 0.3, 5.0, 90.0, 0.8)`. -/
def Config.default : Config := ⟨0.1, 0.5, 0.3, 5, 90, 0.8⟩

/-- The `Q = eye(4) * process_noise; Q[2:4, 2:4] *= 2.0` (the off-diagonal
entries of `eye` are zero, so only the two velocity diagonal entries are
doubled). -/
noncomputable def Config.Q (c : Config) : Matrix (Fin 4) (Fin 4) ℝ :=
  Matrix.diagonal
    ![c.process_noise, c.process_noise, 2 * c.process_noise, 2 * c.process_noise]

/-- The `R = eye(2) * measurement_noise`. -/
noncomputable def Config.R (c : Config) : Matrix (Fin 2) (Fin 2) ℝ :=
  Matrix.diagonal fun _ => c.measurement_noise

/-- The measurement matrix `H` (`H[0,0] = H[1,1] = 1`). -/
def Hmat : Matrix (Fin 2) (Fin 4) ℝ :=
  Matrix.of ![![1, 0, 0, 0], ![0, 1, 0, 0]]

/-- The transition matrix `F = eye(4); F[0,2] = F[1,3] = dt`. -/
def Fmat (dt : ℝ) : Matrix (Fin 4) (Fin 4) ℝ :=
  Matrix.of ![![1, 0, dt, 0], ![0, 1, 0, dt], ![0, 0, 1, 0], ![0, 0, 0, 1]]

/-- The mutable fields of `PolarKalmanFilter`: state vector
`[distance, angle, v_distance, v_angle]`, covariance `P`, and the
bookkeeping fields. -/
structure FilterState where
  state : Fin 4 → ℝ
  P : Matrix (Fin 4) (Fin 4) ℝ
  initialized : Bool
  last_update_time : Option ℝ
  confidence : ℝ
  update_count : Nat
  last_measurement_angle : Option ℝ
  last_measurement_time : Option ℝ

/-- The state `__init__` builds: zero state, `P = eye(4) * 10`,
`initialized = False`, `confidence = 0.0`, all trackers `None`. -/
noncomputable def FilterState.init : FilterState :=
  ⟨![0, 0, 0, 0], Matrix.diagonal fun _ => 10, false, none, 0, 0, none, none⟩

/-- The `PolarKalmanFilter.initialize(distance, angle_deg, timestamp)`. -/
noncomputable def initFilter (fs : FilterState) (distance angle_deg : ℝ)
    (timestamp : Option ℝ) : FilterState :=
  { fs with
      state := ![distance, angle_deg, 0, 0]
      P := Matrix.diagonal fun _ => 10
      confidence := 0.5
      initialized := true
      last_update_time := timestamp
      last_measurement_angle := some angle_deg
      last_measurement_time := timestamp }

open Classical in
/-- The `PolarKalmanFilter._is_angle_jump(angle_deg, timestamp)`: `False` when any
of the trackers or the timestamp is `None` or the gap reached
`stale_reset_sec`; otherwise the wrapped delta against the last accepted raw
angle is compared with the threshold. -/
noncomputable def is_angle_jump (cfg : Config) (fs : FilterState)
    (angle_deg : ℝ) (timestamp : Option ℝ) : Bool :=
  match fs.last_measurement_angle, fs.last_measurement_time, timestamp with
  | some lma, some lmt, some t =>
    if cfg.stale_reset_sec ≤ t - lmt then false
    else decide (cfg.angle_jump_threshold_deg < |wrapAngle (angle_deg - lma)|)
  | _, _, _ => false

/-- The `PolarKalmanFilter.predict(dt)`: `state ← F·state`, `P ← F·P·Fᵀ + Q`,
`confidence *= 0.98`. -/
noncomputable def predict (cfg : Config) (fs : FilterState) (dt : ℝ) :
    FilterState :=
  { fs with
      state := (Fmat dt).mulVec fs.state
      P := Fmat dt * fs.P * (Fmat dt)ᵀ + cfg.Q
      confidence := fs.confidence * 0.98 }

open Classical in
/-- The `PolarKalmanFilter.update(distance, angle_deg)`.  The `np.linalg.inv`
failure branch (singular innovation covariance) is the early return that
leaves the filter untouched.  After the state update the angle component is
re-wrapped, the linearized speed `√(vx² + vy²)` with `vx = -ḋ·sin θ̂`,
`vy = ḋ·cos θ̂` is clamped to `max_human_speed` (scaling both velocity
components and accumulating `speed_penalty`), and the confidence is blended
and clamped to `[min_confidence, 1]`. -/
noncomputable def update (cfg : Config) (fs : FilterState)
    (distance angle_deg : ℝ) : FilterState :=
  let measurement : Fin 2 → ℝ := ![distance, angle_deg]
  let y0 := measurement - Hmat.mulVec fs.state
  let y : Fin 2 → ℝ := ![y0 0, wrapAngle (y0 1)]
  let S := Hmat * fs.P * Hmatᵀ + cfg.R
  if S.det = 0 then fs
  else
    let K := fs.P * Hmatᵀ * S⁻¹
    let state1 := fs.state + K.mulVec y
    let state2 : Fin 4 → ℝ :=
      fun i => if i = 1 then wrapAngle (state1 1) else state1 i
    let P1 := (1 - K * Hmat) * fs.P
    let v_distance := state2 2
    let angle_rad := state2 1 * (Real.pi / 180)
    let vx := -v_distance * Real.sin angle_rad
    let vy := v_distance * Real.cos angle_rad
    let speed := Real.sqrt (vx * vx + vy * vy)
    let speed_penalty :=
      if cfg.max_human_speed < speed then
        min 1 ((speed / cfg.max_human_speed - 1) * 0.5)
      else 0
    let state3 : Fin 4 → ℝ :=
      if cfg.max_human_speed < speed then
        fun i =>
          if i = 2 ∨ i = 3 then state2 i * (cfg.max_human_speed / speed)
          else state2 i
      else state2
    let normalized_dist_error := |y 0| / 1
    let normalized_angle_error := |y 1| / 30
    let total_error :=
      (normalized_dist_error + normalized_angle_error) / 2 + speed_penalty
    let confidence_update := 1 / (1 + total_error * 2)
    let confidence1 := 0.9 * fs.confidence + 0.1 * confidence_update
    { fs with
        state := state3
        P := P1
        confidence := min 1 (max cfg.min_confidence confidence1) }

/-- The parts of the returned `(x, y, info)` triple the claims refer to. -/
structure FilterOutput where
  x : ℝ
  y : ℝ
  status : String
  confidence : ℝ

/-- The `dt` computed by `filter_measurement`: `timestamp - last_update_time`
when both are present, else the 10 ms default. -/
def fmDt (fs : FilterState) (timestamp : Option ℝ) : ℝ :=
  match timestamp, fs.last_update_time with
  | some t, some l => t - l
  | _, _ => 0.01

open Classical in
/-- The conditional predict step of `filter_measurement`
(`if dt > 0: self.predict(dt)`). -/
noncomputable def fmPredict (cfg : Config) (fs : FilterState)
    (timestamp : Option ℝ) : FilterState :=
  if 0 < fmDt fs timestamp then predict cfg fs (fmDt fs timestamp) else fs

open Classical in
/-- The `PolarKalmanFilter.filter_measurement(distance, angle_deg, timestamp)`:
initialization on the first sample, then predict (when `dt > 0`), the
angle-jump gate (keeping the predicted state and decaying the confidence by
an extra 0.95 when it fires), otherwise the measurement update, followed by
the bookkeeping writes and the Cartesian conversion
`y = d·cos θ`, `x = -d·sin θ`. -/
noncomputable def filter_measurement (cfg : Config) (fs : FilterState)
    (distance angle_deg : ℝ) (timestamp : Option ℝ) :
    FilterState × FilterOutput :=
  if fs.initialized = false then
    let fs1 := initFilter fs distance angle_deg timestamp
    let angle_rad := angle_deg * (Real.pi / 180)
    (fs1, ⟨-distance * Real.sin angle_rad, distance * Real.cos angle_rad,
      "initialized", fs1.confidence⟩)
  else
    let fs1 := fmPredict cfg fs timestamp
    if is_angle_jump cfg fs1 angle_deg timestamp then
      let fs2 :=
        { fs1 with
            last_update_time :=
              if timestamp.isSome then timestamp else fs1.last_update_time
            confidence := max cfg.min_confidence (fs1.confidence * 0.95) }
      let angle_rad := fs2.state 1 * (Real.pi / 180)
      (fs2, ⟨-(fs2.state 0) * Real.sin angle_rad,
        fs2.state 0 * Real.cos angle_rad, "rejected_angle_jump",
        fs2.confidence⟩)
    else
      let fs2 := update cfg fs1 distance angle_deg
      let fs3 :=
        { fs2 with
            last_update_time :=
              if timestamp.isSome then timestamp else fs2.last_update_time
            last_measurement_time :=
              if timestamp.isSome then timestamp else fs2.last_measurement_time
            last_measurement_angle := some angle_deg
            update_count := fs2.update_count + 1 }
      let angle_rad := fs3.state 1 * (Real.pi / 180)
      (fs3, ⟨-(fs3.state 0) * Real.sin angle_rad,
        fs3.state 0 * Real.cos angle_rad, "filtered", fs3.confidence⟩)

theorem wrapAngle_zero : wrapAngle (0 : ℝ) = 0 :=
  wrapAngle_eq_of_mem (by norm_num) (by norm_num)

theorem wrapAngle_neg180 : wrapAngle (-180 : ℝ) = -180 :=
  wrapAngle_eq_of_mem (by norm_num) (by norm_num)

theorem Hmat_mulVec (v : Fin 4 → ℝ) : Hmat.mulVec v = ![v 0, v 1] := by
  funext i
  fin_cases i <;>
    simp [Hmat, Matrix.mulVec, Matrix.dotProduct, Fin.sum_univ_four]

theorem Fmat_mulVec (dt : ℝ) (v : Fin 4 → ℝ) :
    (Fmat dt).mulVec v = ![v 0 + dt * v 2, v 1 + dt * v 3, v 2, v 3] := by
  funext i
  fin_cases i <;>
    simp [Fmat, Matrix.mulVec, Matrix.dotProduct, Fin.sum_univ_four]

theorem predict_state_stationary (cfg : Config) (fs : FilterState) (dt d a : ℝ)
    (h : fs.state = ![d, a, 0, 0]) :
    (predict cfg fs dt).state = ![d, a, 0, 0] := by
  simp only [predict, h, Fmat_mulVec]
  funext i
  fin_cases i <;> simp

/-- A measurement at the last accepted raw angle is never an angle jump. -/
theorem is_angle_jump_same_angle (cfg : Config) (fs : FilterState) (a : ℝ)
    (ts : Option ℝ) (hthr : 0 ≤ cfg.angle_jump_threshold_deg)
    (hlma : fs.last_measurement_angle = some a) :
    is_angle_jump cfg fs a ts = false := by
  unfold is_angle_jump
  rw [hlma]
  cases hmt : fs.last_measurement_time with
  | none => cases ts <;> rfl
  | some lmt =>
    cases ts with
    | none => rfl
    | some t =>
      simp only
      by_cases hst : cfg.stale_reset_sec ≤ t - lmt
      · rw [if_pos hst]
      · rw [if_neg hst, sub_self, wrapAngle_zero]
        simp only [abs_zero, decide_eq_false_iff_not, not_lt]
        exact hthr

/-- When the measurement equals the (stationary) filtered state and the
innovation covariance is well behaved, `update` leaves the state vector and
every bookkeeping field unchanged. -/
theorem update_stationary (cfg : Config) (fs : FilterState) (d a : ℝ)
    (hmax : 0 ≤ cfg.max_human_speed)
    (hstate : fs.state = ![d, a, 0, 0]) (ha1 : -180 ≤ a) (ha2 : a ≤ 180) :
    (update cfg fs d a).state = ![d, a, 0, 0] ∧
    (update cfg fs d a).initialized = fs.initialized ∧
    (update cfg fs d a).last_update_time = fs.last_update_time ∧
    (update cfg fs d a).last_measurement_angle = fs.last_measurement_angle ∧
    (update cfg fs d a).last_measurement_time = fs.last_measurement_time := by
  unfold update
  by_cases hdet : (Hmat * fs.P * Hmatᵀ + cfg.R).det = 0
  · rw [if_pos hdet]
    exact ⟨hstate, rfl, rfl, rfl, rfl⟩
  · rw [if_neg hdet]
    refine ⟨?_, rfl, rfl, rfl, rfl⟩
    have hwa : wrapAngle a = a := wrapAngle_eq_of_mem ha1 ha2
    have hv2z : (![(0:ℝ), 0] : Fin 2 → ℝ) = 0 := by
      funext i; fin_cases i <;> rfl
    simp [hstate, Hmat_mulVec, wrapAngle_zero, hwa, hv2z,
      eq_false (not_lt.mpr hmax)]
    funext i
    by_cases hi : i = 1
    · subst hi; simp
    · rw [if_neg hi]

/-- Inversion of the uninitialized branch of `filter_measurement`. -/
theorem filter_measurement_uninit (cfg : Config) (fs : FilterState)
    (d a : ℝ) (ts : Option ℝ) (h : fs.initialized = false) :
    (filter_measurement cfg fs d a ts).1 = initFilter fs d a ts ∧
    (filter_measurement cfg fs d a ts).2.status = "initialized" := by
  rw [filter_measurement, if_pos h]
  exact ⟨rfl, rfl⟩

/-- Inversion of the rejected branch of `filter_measurement`. -/
theorem filter_measurement_rejected (cfg : Config) (fs : FilterState)
    (d a : ℝ) (ts : Option ℝ) (hinit : fs.initialized = true)
    (hjump : is_angle_jump cfg (fmPredict cfg fs ts) a ts = true) :
    (filter_measurement cfg fs d a ts).1 =
      { fmPredict cfg fs ts with
          last_update_time :=
            if ts.isSome then ts else (fmPredict cfg fs ts).last_update_time
          confidence := max cfg.min_confidence
            ((fmPredict cfg fs ts).confidence * 0.95) } ∧
    (filter_measurement cfg fs d a ts).2.status = "rejected_angle_jump" := by
  rw [filter_measurement, if_neg (by rw [hinit]; simp)]
  simp only [hjump, if_true]
  exact ⟨trivial, trivial⟩

/-- Inversion of the accepted branch of `filter_measurement`. -/
theorem filter_measurement_accepted (cfg : Config) (fs : FilterState)
    (d a : ℝ) (ts : Option ℝ) (hinit : fs.initialized = true)
    (hjump : is_angle_jump cfg (fmPredict cfg fs ts) a ts = false) :
    (filter_measurement cfg fs d a ts).1 =
      { update cfg (fmPredict cfg fs ts) d a with
          last_update_time :=
            if ts.isSome then ts
            else (update cfg (fmPredict cfg fs ts) d a).last_update_time
          last_measurement_time :=
            if ts.isSome then ts
            else (update cfg (fmPredict cfg fs ts) d a).last_measurement_time
          last_measurement_angle := some a
          update_count := (update cfg (fmPredict cfg fs ts) d a).update_count + 1 } ∧
    (filter_measurement cfg fs d a ts).2.status = "filtered" := by
  rw [filter_measurement, if_neg (by rw [hinit]; simp)]
  simp only [hjump, Bool.false_eq_true, if_false]
  exact ⟨trivial, trivial⟩

/-- The `fmPredict` leaves all bookkeeping fields unchanged. -/
theorem fmPredict_book (cfg : Config) (fs : FilterState) (ts : Option ℝ) :
    (fmPredict cfg fs ts).initialized = fs.initialized ∧
    (fmPredict cfg fs ts).last_update_time = fs.last_update_time ∧
    (fmPredict cfg fs ts).last_measurement_angle = fs.last_measurement_angle ∧
    (fmPredict cfg fs ts).last_measurement_time = fs.last_measurement_time := by
  unfold fmPredict
  by_cases h : 0 < fmDt fs ts
  · rw [if_pos h]; exact ⟨rfl, rfl, rfl, rfl⟩
  · rw [if_neg h]; exact ⟨rfl, rfl, rfl, rfl⟩

/-- The `fmPredict` preserves a stationary state vector. -/
theorem fmPredict_state_stationary (cfg : Config) (fs : FilterState)
    (ts : Option ℝ) (d a : ℝ) (h : fs.state = ![d, a, 0, 0]) :
    (fmPredict cfg fs ts).state = ![d, a, 0, 0] := by
  unfold fmPredict
  by_cases h0 : 0 < fmDt fs ts
  · rw [if_pos h0]; exact predict_state_stationary cfg fs _ d a h
  · rwa [if_neg h0]

/-- One accepted same-angle, same-distance sample in the C4 scenario:
status `filtered`, state stays at `[5, 30, 0, 0]`, trackers advance. -/
theorem c4_step (fs : FilterState) (t' : ℝ)
    (hinit : fs.initialized = true)
    (hstate : fs.state = ![5, 30, 0, 0])
    (hlma : fs.last_measurement_angle = some 30) :
    ((filter_measurement Config.default fs 5 30 (some t')).1.initialized = true) ∧
    ((filter_measurement Config.default fs 5 30 (some t')).1.state = ![5, 30, 0, 0]) ∧
    ((filter_measurement Config.default fs 5 30 (some t')).1.last_measurement_angle
      = some 30) ∧
    ((filter_measurement Config.default fs 5 30 (some t')).1.last_measurement_time
      = some t') ∧
    ((filter_measurement Config.default fs 5 30 (some t')).1.last_update_time
      = some t') ∧
    ((filter_measurement Config.default fs 5 30 (some t')).2.status = "filtered") := by
  have hbook := fmPredict_book Config.default fs (some t')
  have hjump : is_angle_jump Config.default (fmPredict Config.default fs (some t'))
      30 (some t') = false :=
    is_angle_jump_same_angle _ _ _ _ (by norm_num [Config.default])
      (hbook.2.2.1.trans hlma)
  have hst1 := fmPredict_state_stationary Config.default fs (some t') 5 30 hstate
  have hupd := update_stationary Config.default
    (fmPredict Config.default fs (some t')) 5 30
    (by norm_num [Config.default]) hst1 (by norm_num) (by norm_num)
  obtain ⟨heq, hstatus⟩ := filter_measurement_accepted Config.default fs 5 30 (some t')
    hinit hjump
  rw [heq]
  refine ⟨?_, ?_, rfl, rfl, rfl, hstatus⟩
  · show (update Config.default (fmPredict Config.default fs (some t')) 5 30).initialized
      = true
    rw [hupd.2.1, hbook.1, hinit]
  · exact hupd.1

/-- The `_is_angle_jump` with all trackers present, as the source's if-chain. -/
theorem is_angle_jump_some (cfg : Config) (fs : FilterState) (a lma lmt t : ℝ)
    (h1 : fs.last_measurement_angle = some lma)
    (h2 : fs.last_measurement_time = some lmt) :
    is_angle_jump cfg fs a (some t) =
      if cfg.stale_reset_sec ≤ t - lmt then false
      else decide (cfg.angle_jump_threshold_deg < |wrapAngle (a - lma)|) := by
  unfold is_angle_jump
  rw [h1, h2]

/-- The first sample of the C4 scenario initializes the filter. -/
theorem c4_init_facts :
    ((filter_measurement Config.default FilterState.init 5 30 (some 0)).1.initialized
      = true) ∧
    ((filter_measurement Config.default FilterState.init 5 30 (some 0)).1.state
      = ![5, 30, 0, 0]) ∧
    ((filter_measurement Config.default FilterState.init 5 30 (some 0)).1.last_measurement_angle
      = some 30) ∧
    ((filter_measurement Config.default FilterState.init 5 30 (some 0)).1.last_measurement_time
      = some 0) ∧
    ((filter_measurement Config.default FilterState.init 5 30 (some 0)).1.last_update_time
      = some 0) := by
  obtain ⟨heq, _⟩ :=
    filter_measurement_uninit Config.default FilterState.init 5 30 (some 0) rfl
  rw [heq]
  exact ⟨rfl, rfl, rfl, rfl, rfl⟩

/-- One step of the C4 scenario feed. -/
noncomputable def c4_feed (fs : FilterState) (t : ℝ) : FilterState :=
  (filter_measurement Config.default fs 5 30 (some t)).1

/-- The filter state after ten samples stable at 30° (distance 5 m) at
0.1 s spacing, t = 0, 0.1, …, 0.9. -/
noncomputable def c4_s10 : FilterState :=
  c4_feed (c4_feed (c4_feed (c4_feed (c4_feed (c4_feed (c4_feed (c4_feed (c4_feed
    (c4_feed FilterState.init 0) 0.1) 0.2) 0.3) 0.4) 0.5) 0.6) 0.7) 0.8) 0.9

theorem c4_s10_facts :
    c4_s10.initialized = true ∧ c4_s10.state = ![5, 30, 0, 0] ∧
    c4_s10.last_measurement_angle = some 30 ∧
    c4_s10.last_measurement_time = some 0.9 ∧
    c4_s10.last_update_time = some 0.9 := by
  have h0 := c4_init_facts
  have h1 := c4_step (c4_feed FilterState.init 0) 0.1 h0.1 h0.2.1 h0.2.2.1
  have h2 := c4_step _ 0.2 h1.1 h1.2.1 h1.2.2.1
  have h3 := c4_step _ 0.3 h2.1 h2.2.1 h2.2.2.1
  have h4 := c4_step _ 0.4 h3.1 h3.2.1 h3.2.2.1
  have h5 := c4_step _ 0.5 h4.1 h4.2.1 h4.2.2.1
  have h6 := c4_step _ 0.6 h5.1 h5.2.1 h5.2.2.1
  have h7 := c4_step _ 0.7 h6.1 h6.2.1 h6.2.2.1
  have h8 := c4_step _ 0.8 h7.1 h7.2.1 h7.2.2.1
  have h9 := c4_step _ 0.9 h8.1 h8.2.1 h8.2.2.1
  exact ⟨h9.1, h9.2.1, h9.2.2.1, h9.2.2.2.1, h9.2.2.2.2.1⟩

/-- Claim **C4**: after ten samples stable at 30° spaced 0.1 s apart, a −150°
measurement 0.1 s later is rejected: status `rejected_angle_jump`, the
predicted state is kept (still `[5, 30, 0, 0]` — no pull toward −150°), and
the confidence is the predicted confidence (0.98 decay) times the extra 0.95,
floored at `min_confidence`.  The same −150° measurement arriving after a 5 s
gap (≥ `stale_reset_sec`) is accepted and reported as a normal `filtered`
update. -/
theorem c4_outlier_rejection :
    ((filter_measurement Config.default c4_s10 5 (-150) (some 1)).2.status
      = "rejected_angle_jump") ∧
    ((filter_measurement Config.default c4_s10 5 (-150) (some 1)).1.state
      = (fmPredict Config.default c4_s10 (some 1)).state) ∧
    ((filter_measurement Config.default c4_s10 5 (-150) (some 1)).1.state
      = ![5, 30, 0, 0]) ∧
    ((filter_measurement Config.default c4_s10 5 (-150) (some 1)).1.confidence
      = max Config.default.min_confidence
          ((fmPredict Config.default c4_s10 (some 1)).confidence * 0.95)) ∧
    ((fmPredict Config.default c4_s10 (some 1)).confidence
      = c4_s10.confidence * 0.98) ∧
    ((filter_measurement Config.default c4_s10 5 (-150) (some 5.9)).2.status
      = "filtered") := by
  obtain ⟨hi, hst, hlma, hlmt, hlut⟩ := c4_s10_facts
  have hb1 := fmPredict_book Config.default c4_s10 (some 1)
  have hjump1 : is_angle_jump Config.default
      (fmPredict Config.default c4_s10 (some 1)) (-150) (some 1) = true := by
    rw [is_angle_jump_some Config.default _ (-150) 30 0.9 1
      (hb1.2.2.1.trans hlma) (hb1.2.2.2.trans hlmt)]
    rw [if_neg (by norm_num [Config.default])]
    rw [show ((-150 : ℝ) - 30) = -180 by norm_num, wrapAngle_neg180]
    simp only [decide_eq_true_eq]
    rw [abs_of_nonpos (by norm_num : (-180 : ℝ) ≤ 0)]
    norm_num [Config.default]
  obtain ⟨heq, hstatus⟩ :=
    filter_measurement_rejected Config.default c4_s10 5 (-150) (some 1) hi hjump1
  have hdtpos : (0 : ℝ) < fmDt c4_s10 (some 1) := by
    simp only [fmDt, hlut]
    norm_num
  have hfm : fmPredict Config.default c4_s10 (some 1)
      = predict Config.default c4_s10 (fmDt c4_s10 (some 1)) := by
    rw [fmPredict, if_pos hdtpos]
  have hb2 := fmPredict_book Config.default c4_s10 (some 5.9)
  have hjump2 : is_angle_jump Config.default
      (fmPredict Config.default c4_s10 (some 5.9)) (-150) (some 5.9) = false := by
    rw [is_angle_jump_some Config.default _ (-150) 30 0.9 5.9
      (hb2.2.2.1.trans hlma) (hb2.2.2.2.trans hlmt)]
    rw [if_pos (by norm_num [Config.default])]
  refine ⟨hstatus, ?_, ?_, ?_, ?_, ?_⟩
  · rw [heq]
  · rw [heq]
    exact fmPredict_state_stationary Config.default c4_s10 (some 1) 5 30 hst
  · rw [heq]
  · rw [hfm]; rfl
  · exact (filter_measurement_accepted Config.default c4_s10 5 (-150) (some 5.9)
      hi hjump2).2

/-- The clamp's linearized speed is exactly `|v_distance|`:
`√((-ḋ sin θ)² + (ḋ cos θ)²) = |ḋ|`. -/
theorem speed_eq_abs (vd θ : ℝ) :
    Real.sqrt (-vd * Real.sin θ * (-vd * Real.sin θ) +
      vd * Real.cos θ * (vd * Real.cos θ)) = |vd| := by
  have h : -vd * Real.sin θ * (-vd * Real.sin θ) +
      vd * Real.cos θ * (vd * Real.cos θ)
      = vd ^ 2 * (Real.sin θ ^ 2 + Real.cos θ ^ 2) := by ring
  rw [h, Real.sin_sq_add_cos_sq, mul_one, Real.sqrt_sq_eq_abs]

/-- The speed clamp bounds `|v_distance|` by `max_human_speed`: either the
speed (= `|w|`) was within the bound, or the component is rescaled to exactly
the bound. -/
theorem clamp_abs_le (M w θ : ℝ) (hM : 0 ≤ M) :
    |(if M < Real.sqrt (-w * Real.sin θ * (-w * Real.sin θ) +
          w * Real.cos θ * (w * Real.cos θ)) then
        w * (M / Real.sqrt (-w * Real.sin θ * (-w * Real.sin θ) +
          w * Real.cos θ * (w * Real.cos θ)))
      else w)| ≤ M := by
  rw [speed_eq_abs]
  split
  case isTrue h =>
    have hw : w ≠ 0 := by
      intro h0
      rw [h0, abs_zero] at h
      linarith
    have habs : |w| ≠ 0 := abs_ne_zero.mpr hw
    rw [abs_mul, abs_div, abs_abs, abs_of_nonneg hM]
    rw [mul_comm, div_mul_cancel₀ M habs]
  case isFalse h => exact not_lt.mp h

/-- The `update` keeps `|v_distance|` within `max_human_speed` (the singular
branch leaves the state untouched, the regular branch clamps). -/
theorem update_speed_bound (cfg : Config) (fs : FilterState) (d a : ℝ)
    (hmax : 0 ≤ cfg.max_human_speed)
    (hpre : |fs.state 2| ≤ cfg.max_human_speed) :
    |(update cfg fs d a).state 2| ≤ cfg.max_human_speed := by
  unfold update
  by_cases hdet : (Hmat * fs.P * Hmatᵀ + cfg.R).det = 0
  · rw [if_pos hdet]; exact hpre
  · rw [if_neg hdet]
    have h11 : ((1 : Fin 4) = 1) = True := by simp
    have h21 : ((2 : Fin 4) = 1) = False := by simp
    have h23 : ((2 : Fin 4) = 2 ∨ (2 : Fin 4) = 3) = True := by simp
    dsimp only
    rw [apply_ite (fun (v : Fin 4 → ℝ) => v 2)]
    simp only [h11, h21, h23, if_true, if_false]
    exact clamp_abs_le cfg.max_human_speed _ _ hmax

/-- The `predict` does not change `v_distance` (row 2 of `F` is `[0,0,1,0]`). -/
theorem predict_v_distance (cfg : Config) (fs : FilterState) (dt : ℝ) :
    (predict cfg fs dt).state 2 = fs.state 2 := by
  show (Fmat dt).mulVec fs.state 2 = fs.state 2
  rw [Fmat_mulVec]
  simp

theorem fmPredict_v_distance (cfg : Config) (fs : FilterState) (ts : Option ℝ) :
    (fmPredict cfg fs ts).state 2 = fs.state 2 := by
  unfold fmPredict
  split
  · exact predict_v_distance cfg fs _
  · rfl

/-- Claim **C10**: after every `filter_measurement` call, `|v_distance|` (the
radial-velocity state component) stays within `max_human_speed`; the clamp's
linearized speed equals `|v_distance|` exactly, and `predict` and
`initialize` never increase it. -/
theorem c10_speed_invariant (cfg : Config) (fs : FilterState) (d a : ℝ)
    (ts : Option ℝ) (hmax : 0 ≤ cfg.max_human_speed)
    (hinv : fs.initialized = true → |fs.state 2| ≤ cfg.max_human_speed) :
    |(filter_measurement cfg fs d a ts).1.state 2| ≤ cfg.max_human_speed ∧
    (∀ vd θ : ℝ,
      Real.sqrt (-vd * Real.sin θ * (-vd * Real.sin θ) +
        vd * Real.cos θ * (vd * Real.cos θ)) = |vd|) ∧
    (∀ dt : ℝ, (predict cfg fs dt).state 2 = fs.state 2) ∧
    (∀ d0 a0 : ℝ, ∀ t0 : Option ℝ, (initFilter fs d0 a0 t0).state 2 = 0) := by
  refine ⟨?_, speed_eq_abs, predict_v_distance cfg fs, fun d0 a0 t0 => by
    show (![d0, a0, 0, 0] : Fin 4 → ℝ) 2 = 0
    simp⟩
  by_cases hb : fs.initialized = false
  · rw [(filter_measurement_uninit cfg fs d a ts hb).1]
    show |(![d, a, 0, 0] : Fin 4 → ℝ) 2| ≤ _
    simpa using hmax
  · have hinit : fs.initialized = true := by
      revert hb; cases fs.initialized <;> simp
    have hpre : |(fmPredict cfg fs ts).state 2| ≤ cfg.max_human_speed := by
      rw [fmPredict_v_distance]
      exact hinv hinit
    by_cases hj : is_angle_jump cfg (fmPredict cfg fs ts) a ts = true
    · rw [(filter_measurement_rejected cfg fs d a ts hinit hj).1]
      exact hpre
    · have hj' : is_angle_jump cfg (fmPredict cfg fs ts) a ts = false := by
        revert hj; cases is_angle_jump cfg (fmPredict cfg fs ts) a ts <;> simp
      rw [(filter_measurement_accepted cfg fs d a ts hinit hj').1]
      exact update_speed_bound cfg _ d a hmax hpre

theorem conjT_eq_transpose {m n : Type*} (A : Matrix m n ℝ) : Aᴴ = Aᵀ := rfl

/-- With positive measurement noise and a positive semidefinite covariance,
the innovation covariance `S = H P Hᵀ + R` is positive definite. -/
theorem S_posDef (cfg : Config) (P : Matrix (Fin 4) (Fin 4) ℝ)
    (hmn : 0 < cfg.measurement_noise) (hP : P.PosSemidef) :
    (Hmat * P * Hmatᵀ + cfg.R).PosDef := by
  have hR : (cfg.R).PosDef := by
    rw [Config.R]
    exact Matrix.posDef_diagonal_iff.mpr fun _ => hmn
  have hHPHt : (Hmat * P * Hmatᵀ).PosSemidef := by
    have h := hP.mul_mul_conjTranspose_same Hmat
    rwa [conjT_eq_transpose] at h
  exact Matrix.PosDef.posSemidef_add hHPHt hR

theorem S_det_ne (cfg : Config) (P : Matrix (Fin 4) (Fin 4) ℝ)
    (hmn : 0 < cfg.measurement_noise) (hP : P.PosSemidef) :
    (Hmat * P * Hmatᵀ + cfg.R).det ≠ 0 :=
  (S_posDef cfg P hmn hP).det_pos.ne'

/-- The `predict` preserves positive semidefiniteness of `P`
(`F P Fᵀ` is a congruence, `Q` is a nonnegative diagonal). -/
theorem predict_P_posSemidef (cfg : Config) (fs : FilterState) (dt : ℝ)
    (hpn : 0 ≤ cfg.process_noise) (hP : fs.P.PosSemidef) :
    (predict cfg fs dt).P.PosSemidef := by
  show (Fmat dt * fs.P * (Fmat dt)ᵀ + cfg.Q).PosSemidef
  refine Matrix.PosSemidef.add ?_ ?_
  · have h := hP.mul_mul_conjTranspose_same (Fmat dt)
    rwa [conjT_eq_transpose] at h
  · rw [Config.Q]
    refine Matrix.posSemidef_diagonal_iff.mpr fun i => ?_
    fin_cases i <;> simp <;> linarith

theorem fmPredict_P_posSemidef (cfg : Config) (fs : FilterState)
    (ts : Option ℝ) (hpn : 0 ≤ cfg.process_noise) (hP : fs.P.PosSemidef) :
    (fmPredict cfg fs ts).P.PosSemidef := by
  unfold fmPredict
  split
  · exact predict_P_posSemidef cfg fs _ hpn hP
  · exact hP

/-- After a non-singular `update`, the confidence is clamped into
`[min_confidence, 1]`. -/
theorem update_conf_bound (cfg : Config) (fs : FilterState) (d a : ℝ)
    (hminc1 : cfg.min_confidence ≤ 1)
    (hdet : (Hmat * fs.P * Hmatᵀ + cfg.R).det ≠ 0) :
    cfg.min_confidence ≤ (update cfg fs d a).confidence ∧
    (update cfg fs d a).confidence ≤ 1 := by
  unfold update
  rw [if_neg hdet]
  exact ⟨le_min hminc1 (le_max_left _ _), min_le_left _ _⟩

/-- The updated covariance `(I - K H) P` is positive semidefinite: with
`K = P Hᵀ S⁻¹` it equals the Joseph form
`(I - K H) P (I - K H)ᵀ + K R Kᵀ`, a sum of two congruences. -/
theorem update_P_posSemidef (cfg : Config) (fs : FilterState) (d a : ℝ)
    (hmn : 0 < cfg.measurement_noise) (hP : fs.P.PosSemidef) :
    (update cfg fs d a).P.PosSemidef := by
  have hdet := S_det_ne cfg fs.P hmn hP
  have hRpsd : (cfg.R).PosSemidef := by
    rw [Config.R]
    exact Matrix.posSemidef_diagonal_iff.mpr fun _ => le_of_lt hmn
  unfold update
  rw [if_neg hdet]
  show ((1 - fs.P * Hmatᵀ * (Hmat * fs.P * Hmatᵀ + cfg.R)⁻¹ * Hmat) * fs.P).PosSemidef
  set S := Hmat * fs.P * Hmatᵀ + cfg.R with hSdef
  set K := fs.P * Hmatᵀ * S⁻¹ with hKdef
  have hKS : K * S = fs.P * Hmatᵀ := by
    rw [hKdef, Matrix.mul_assoc (fs.P * Hmatᵀ),
      Matrix.nonsing_inv_mul S (isUnit_iff_ne_zero.mpr hdet), Matrix.mul_one]
  have h2 : K * S * Kᵀ = K * (Hmat * fs.P * Hmatᵀ) * Kᵀ + K * cfg.R * Kᵀ := by
    rw [hSdef, Matrix.mul_add, Matrix.add_mul]
  have hJoseph : (1 - K * Hmat) * fs.P
      = (1 - K * Hmat) * fs.P * (1 - K * Hmat)ᵀ + K * cfg.R * Kᵀ := by
    have hexp : (1 - K * Hmat) * fs.P * (1 - K * Hmat)ᵀ + K * cfg.R * Kᵀ
        = fs.P - K * Hmat * fs.P - fs.P * Hmatᵀ * Kᵀ +
          (K * (Hmat * fs.P * Hmatᵀ) * Kᵀ + K * cfg.R * Kᵀ) := by
      rw [Matrix.transpose_sub, Matrix.transpose_one, Matrix.transpose_mul]
      noncomm_ring
      simp only [Matrix.mul_assoc]
      abel
    rw [hexp, ← h2, hKS]
    noncomm_ring
  rw [hJoseph]
  refine Matrix.PosSemidef.add ?_ ?_
  · have h := hP.mul_mul_conjTranspose_same (1 - K * Hmat)
    rwa [conjT_eq_transpose] at h
  · have h := hRpsd.mul_mul_conjTranspose_same K
    rwa [conjT_eq_transpose] at h

/-- The reachability invariant for C9: confidence in `[min_confidence, 1]`
and a positive semidefinite covariance. -/
def ConfInvariant (cfg : Config) (fs : FilterState) : Prop :=
  cfg.min_confidence ≤ fs.confidence ∧ fs.confidence ≤ 1 ∧ fs.P.PosSemidef

/-- Claim **C9**: for a filter with `min_confidence ≤ 0.5` (and the constructor's
positive noise parameters), every completed `filter_measurement` call —
initialization, accepted update, or angle-jump rejection — leaves the
confidence in `[min_confidence, 1]` (together with the covariance
positive-semidefiniteness that makes the invariant inductive; a fresh filter
satisfies it, see the witness). -/
theorem c9_confidence_invariant (cfg : Config) (fs : FilterState) (d a : ℝ)
    (ts : Option ℝ) (hpn : 0 ≤ cfg.process_noise)
    (hmn : 0 < cfg.measurement_noise) (hminc : cfg.min_confidence ≤ 0.5)
    (hinv : fs.initialized = true → ConfInvariant cfg fs) :
    ConfInvariant cfg (filter_measurement cfg fs d a ts).1 := by
  have hminc1 : cfg.min_confidence ≤ 1 := by linarith
  by_cases hb : fs.initialized = false
  · rw [(filter_measurement_uninit cfg fs d a ts hb).1]
    refine ⟨?_, ?_, ?_⟩
    · show cfg.min_confidence ≤ (0.5 : ℝ)
      exact hminc
    · show (0.5 : ℝ) ≤ 1
      norm_num
    · show (Matrix.diagonal fun _ => (10 : ℝ)).PosSemidef
      exact Matrix.posSemidef_diagonal_iff.mpr fun _ => by norm_num
  · have hinit : fs.initialized = true := by
      revert hb; cases fs.initialized <;> simp
    obtain ⟨hc1, hc2, hPsd⟩ := hinv hinit
    have hP1 : (fmPredict cfg fs ts).P.PosSemidef :=
      fmPredict_P_posSemidef cfg fs ts hpn hPsd
    have hc1ub : (fmPredict cfg fs ts).confidence ≤ 1 := by
      unfold fmPredict
      split
      · show fs.confidence * 0.98 ≤ 1
        linarith
      · exact hc2
    by_cases hj : is_angle_jump cfg (fmPredict cfg fs ts) a ts = true
    · rw [(filter_measurement_rejected cfg fs d a ts hinit hj).1]
      refine ⟨le_max_left _ _, ?_, hP1⟩
      show max cfg.min_confidence ((fmPredict cfg fs ts).confidence * 0.95) ≤ 1
      exact max_le hminc1 (by linarith)
    · have hj' : is_angle_jump cfg (fmPredict cfg fs ts) a ts = false := by
        revert hj; cases is_angle_jump cfg (fmPredict cfg fs ts) a ts <;> simp
      rw [(filter_measurement_accepted cfg fs d a ts hinit hj').1]
      have hdet := S_det_ne cfg (fmPredict cfg fs ts).P hmn hP1
      obtain ⟨hlo, hhi⟩ := update_conf_bound cfg (fmPredict cfg fs ts) d a hminc1 hdet
      exact ⟨hlo, hhi, update_P_posSemidef cfg (fmPredict cfg fs ts) d a hmn hP1⟩

/-- Claim **C9 (witness)**: the invariant applied to a fresh default filter
(first call = initialization), with the constructor hypotheses discharged. -/
theorem c9_confidence_invariant_witness :
    (0 : ℝ) ≤ Config.default.process_noise ∧
    (0 : ℝ) < Config.default.measurement_noise ∧
    Config.default.min_confidence ≤ 0.5 ∧
    ConfInvariant Config.default
      (filter_measurement Config.default FilterState.init 5 30 (some 0)).1 :=
  ⟨by norm_num [Config.default], by norm_num [Config.default],
    by norm_num [Config.default],
    c9_confidence_invariant Config.default FilterState.init 5 30 (some 0)
      (by norm_num [Config.default]) (by norm_num [Config.default])
      (by norm_num [Config.default])
      (fun h => by simp [FilterState.init] at h)⟩

/-- Claim **C10 (witness)**: the invariant applied to a fresh default filter. -/
theorem c10_speed_invariant_witness :
    (0 : ℝ) ≤ Config.default.max_human_speed ∧
    |(filter_measurement Config.default FilterState.init 5 30 (some 0)).1.state 2|
      ≤ Config.default.max_human_speed :=
  ⟨by norm_num [Config.default],
    (c10_speed_invariant Config.default FilterState.init 5 30 (some 0)
      (by norm_num [Config.default])
      (fun h => by simp [FilterState.init] at h)).1⟩

end KF

namespace CT

/-- The pose fields `transform_beacon_to_global` reads (`z`, `pitch`, `roll`
are never used by either transform). -/
structure RobotPose where
  x : ℝ
  y : ℝ
  yaw : ℝ

/-- The `CoordinateTransformer.transform_beacon_to_global`
(src/coordinate_transform.py): degree-to-radian fallback when
`|yaw| > 2π`, then `x_g = x_r + lx·cos − ly·sin`,
`y_g = y_r + lx·sin + ly·cos`. -/
noncomputable def transform_beacon_to_global
    (beacon_local_x beacon_local_y : ℝ) (robot_pose : RobotPose) : ℝ × ℝ :=
  let yaw_robot :=
    if 2 * Real.pi < |robot_pose.yaw| then robot_pose.yaw * (Real.pi / 180)
    else robot_pose.yaw
  let cos_yaw := Real.cos yaw_robot
  let sin_yaw := Real.sin yaw_robot
  (robot_pose.x + beacon_local_x * cos_yaw - beacon_local_y * sin_yaw,
   robot_pose.y + beacon_local_x * sin_yaw + beacon_local_y * cos_yaw)

/-- Python 3 `round` (banker's rounding, half to even) on the ideal real. -/
noncomputable def pyRound (x : ℝ) : ℤ :=
  if Int.fract x < 1 / 2 then ⌊x⌋
  else if 1 / 2 < Int.fract x then ⌊x⌋ + 1
  else if Even ⌊x⌋ then ⌊x⌋ else ⌊x⌋ + 1

/-- The `round(x, 2)`: round to 0.01 m precision. -/
noncomputable def round2 (x : ℝ) : ℝ := (pyRound (x * 100) : ℝ) / 100

/-- The `MainWindow._transform_local_to_global` (src/ui/main_window.py):
`m_x = x_r + ly·cos + lx·sin`, `m_y = y_r + ly·sin − lx·cos`, each rounded to
2 decimals; the returned `{'m_x': …, 'm_y': …}` dict is modelled as the
pair. -/
noncomputable def transform_local_to_global
    (local_x local_y m_anchor_x m_anchor_y anchor_theta : ℝ) : ℝ × ℝ :=
  let cos_theta := Real.cos anchor_theta
  let sin_theta := Real.sin anchor_theta
  (round2 (m_anchor_x + local_y * cos_theta + local_x * sin_theta),
   round2 (m_anchor_y + local_y * sin_theta - local_x * cos_theta))

theorem pyRound_intCast (n : ℤ) : pyRound (n : ℝ) = n := by
  unfold pyRound
  rw [Int.fract_intCast, if_pos (by norm_num), Int.floor_intCast]

theorem round2_one : round2 (1 : ℝ) = 1 := by
  unfold round2
  rw [show (1 : ℝ) * 100 = ((100 : ℤ) : ℝ) by norm_num, pyRound_intCast]
  norm_num

theorem round2_zero : round2 (0 : ℝ) = 0 := by
  unfold round2
  rw [show (0 : ℝ) * 100 = ((0 : ℤ) : ℝ) by norm_num, pyRound_intCast]
  norm_num

/-- Claim **C3**: the two coordinate-transform implementations are *not*
equivalent: at pose `(0, 0, yaw = π/2)` and local coordinates `(1, 0)`,
`coordinate_transform.py` returns `(0, 1)` while `ui/main_window.py`'s
`_transform_local_to_global` returns `(1, 0)`. -/
theorem c3_transforms_inequivalent :
    ∃ (lx ly : ℝ) (pose : RobotPose), pose.yaw ≠ 0 ∧
      transform_beacon_to_global lx ly pose ≠
        transform_local_to_global lx ly pose.x pose.y pose.yaw := by
  refine ⟨1, 0, ⟨0, 0, Real.pi / 2⟩, by positivity, ?_⟩
  have hyaw : ¬ (2 * Real.pi < |Real.pi / 2|) := by
    rw [abs_of_pos (by positivity)]
    nlinarith [Real.pi_pos]
  unfold transform_beacon_to_global transform_local_to_global
  rw [if_neg hyaw]
  simp only [Real.cos_pi_div_two, Real.sin_pi_div_two]
  norm_num [round2_one, round2_zero]

end CT

